import Mathlib

/-!
Shallow embedding of the HitBTC connector (`hummingbot/market/hitbtc/hitbtc_market.pyx`)
order-lifecycle logic, and proofs about it.

Modelling conventions:
* Python `Decimal` values are modelled as `ℚ` (exact rational arithmetic, as `Decimal` is exact
  for the operations used here).
* The shared in-flight order dictionary `self._in_flight_orders` is modelled as an association
  list keyed by client order id.
* Remote calls are modelled by passing their outcome (parsed response, API error envelope,
  other exception, task cancellation) as an explicit argument to the function that awaits them.
* Python `a is b` on strings is modelled as string equality, the evident reading of the source.
* Logging calls are side-effect free and are not modelled.
-/

namespace HitBTC

/-- `c_get_fee` returns `TradeFee(percent=Decimal("0.0007"))` (fixed tier-1 rate). -/
def feeRate : ℚ := 7 / 10000

/-- The in-flight order record tracked in `self._in_flight_orders`
(fields used by `hitbtc_market.pyx`; asset-name fields, which only label events, are omitted). -/
structure InFlightOrder where
  client_order_id : String
  exchange_order_id : String
  trading_pair : String
  is_buy : Bool
  price : ℚ
  amount : ℚ
  executed_amount_base : ℚ
  executed_amount_quote : ℚ
  fee_paid : ℚ
  last_state : String
deriving DecidableEq, Repr

/-- The recognized raw lifecycle states, from the comment and membership test at
lines 480-482 of `_update_order_status`. -/
def recognizedStates : List String :=
  ["new", "suspended", "partiallyFilled", "filled", "canceled", "expired"]

/-- Modelled from the spec: `HitBTCInFlightOrder.is_done` (the class
`hitbtc_in_flight_order` is imported but its file is not in the repository sources).
Spec: the terminal states are Filled, Cancelled, Expired. -/
def InFlightOrder.is_done (o : InFlightOrder) : Bool :=
  o.last_state ∈ (["filled", "canceled", "expired"] : List String)

/-- Modelled from the spec: `HitBTCInFlightOrder.is_cancelled`.
Spec design note: a terminal "expired" state is not distinguished from "cancelled"
in the completion branch, so it routes to the cancellation branch. -/
def InFlightOrder.is_cancelled (o : InFlightOrder) : Bool :=
  o.last_state ∈ (["canceled", "expired"] : List String)

/-- Modelled from the spec: `HitBTCInFlightOrder.is_open`.
Spec: "Suspended" and "New" are open/non-terminal; "PartiallyFilled" is open/non-terminal. -/
def InFlightOrder.is_open (o : InFlightOrder) : Bool :=
  o.last_state ∈ (["new", "suspended", "partiallyFilled"] : List String)

/-- The lifecycle events triggered via `c_trigger_event` (payload fields relevant to the
claims; timestamps and asset-name labels are omitted). -/
inductive Event where
  | OrderFilled (client_order_id : String) (price : ℚ) (amount : ℚ) (fee_percent : ℚ)
  | BuyOrderCompleted (client_order_id : String) (base : ℚ) (quote : ℚ) (fee : ℚ)
  | SellOrderCompleted (client_order_id : String) (base : ℚ) (quote : ℚ) (fee : ℚ)
  | OrderCancelled (client_order_id : String)
  | OrderFailure (client_order_id : String)
  | BuyOrderCreated (client_order_id : String) (amount : ℚ) (price : ℚ)
  | SellOrderCreated (client_order_id : String) (amount : ℚ) (price : ℚ)
deriving DecidableEq, Repr

/-- Whether an event is an `OrderFilled` event. -/
def Event.isFill : Event → Bool
  | .OrderFilled _ _ _ _ => true
  | _ => false

/-- The incremental amount carried by a fill event (`0` for any other event). -/
def Event.fillAmount : Event → ℚ
  | .OrderFilled _ _ a _ => a
  | _ => 0

/-- The fill events among a list of emitted events. -/
def fillEvents (evs : List Event) : List Event := evs.filter Event.isFill

/-- Sum of the incremental amounts carried by the emitted `OrderFilled` events. -/
def sumFills (evs : List Event) : ℚ := (evs.map Event.fillAmount).sum

/-- One status-poll payload for a single order, as consumed by `_update_order_status`
(the fields it reads: `status`, `cumQuantity`, `price`). -/
structure StatusUpdate where
  status : String
  cumQuantity : ℚ
  price : ℚ
deriving DecidableEq, Repr

/-- Result of applying one update to one tracked order: the mutated order, the events
triggered, and whether `c_stop_tracking_order` removed the order from the registry. -/
structure UpdateResult where
  order : InFlightOrder
  events : List Event
  removed : Bool
deriving DecidableEq, Repr

/-- The per-order body of `_update_order_status` (lines 479-559) applied to one tracked
order and one successfully fetched status payload:
set `last_state`, compute `execute_amount_diff = cumQuantity - executed_amount_base`,
on a positive diff overwrite the cumulative base/quote/fee and emit one `OrderFilled`
event carrying the diff, then handle the terminal branches. -/
def update_order_status (o0 : InFlightOrder) (u : StatusUpdate) : UpdateResult :=
  let o1 : InFlightOrder := { o0 with last_state := u.status }
  let new_confirmed_amount := u.cumQuantity
  let execute_amount_diff := new_confirmed_amount - o1.executed_amount_base
  let step : InFlightOrder × List Event :=
    if 0 < execute_amount_diff then
      let o2 : InFlightOrder := { o1 with
        executed_amount_base := new_confirmed_amount,
        executed_amount_quote := u.price * new_confirmed_amount }
      let o3 : InFlightOrder := { o2 with fee_paid := o2.executed_amount_quote * feeRate }
      (o3, [Event.OrderFilled o3.client_order_id u.price execute_amount_diff feeRate])
    else (o1, [])
  let o := step.1
  let fills := step.2
  if o.is_open then
    ⟨o, fills, false⟩
  else if o.is_done then
    if ¬ o.is_cancelled then
      ⟨o, fills ++
        [if o.is_buy then
           Event.BuyOrderCompleted o.client_order_id o.executed_amount_base
             o.executed_amount_quote o.fee_paid
         else
           Event.SellOrderCompleted o.client_order_id o.executed_amount_base
             o.executed_amount_quote o.fee_paid], true⟩
    else
      ⟨o, fills ++ [Event.OrderCancelled o.client_order_id], true⟩
  else
    ⟨o, fills, false⟩

/-- Sequential application of a list of status-poll payloads delivered to a tracked order
(the polling loop processes updates for one order in delivery order). -/
def applyStatusUpdates (o : InFlightOrder) (us : List StatusUpdate) :
    InFlightOrder × List Event :=
  match us with
  | [] => (o, [])
  | u :: rest =>
    let r := update_order_status o u
    let tail := applyStatusUpdates r.order rest
    (tail.1, r.events ++ tail.2)

/-- One user-stream payload, as consumed by `_user_stream_event_listener`
(the fields it reads: `status`, `clientOrderId`, `tradePrice`, `tradeQuantity`,
`tradeFee`, `reportType`). -/
structure StreamUpdate where
  status : String
  clientOrderId : String
  tradePrice : ℚ
  tradeQuantity : ℚ
  tradeFee : ℚ
  reportType : String
deriving DecidableEq, Repr

/-- The per-message body of `_user_stream_event_listener` (lines 934-1015) applied to the
tracked order the message resolves to: set `last_state` and `fee_paid` from the payload,
emit an `OrderFilled` event whenever `tradeQuantity > 0` and the report type is a trade
(the stream handler uses the per-trade quantity directly, not a cumulative diff),
then handle the terminal branches. -/
def user_stream_event_listener_step (o0 : InFlightOrder) (u : StreamUpdate) : UpdateResult :=
  let execute_price := u.tradePrice
  let execute_amount_diff := u.tradeQuantity
  let o1 : InFlightOrder := { o0 with last_state := u.status, fee_paid := u.tradeFee }
  let fills : List Event :=
    if 0 < execute_amount_diff ∧ u.reportType = "trade" then
      [Event.OrderFilled o1.client_order_id execute_price execute_amount_diff feeRate]
    else []
  if o1.is_done then
    if ¬ o1.is_cancelled then
      ⟨o1, fills ++
        [if o1.is_buy then
           Event.BuyOrderCompleted o1.client_order_id o1.executed_amount_base
             o1.executed_amount_quote o1.fee_paid
         else
           Event.SellOrderCompleted o1.client_order_id o1.executed_amount_base
             o1.executed_amount_quote o1.fee_paid], true⟩
    else
      ⟨{ o1 with last_state := "cancelled" },
        fills ++ [Event.OrderCancelled o1.client_order_id], true⟩
  else
    ⟨o1, fills, false⟩

/-! ### Registry, trading rules, submission and cancellation -/

/-- The in-flight order registry `self._in_flight_orders`, modelled as an association list
keyed by client order id (Python `dict` keys are unique). -/
abbrev Registry := List (String × InFlightOrder)

/-- Dictionary lookup `self._in_flight_orders.get(order_id)`. -/
def regGet (reg : Registry) (order_id : String) : Option InFlightOrder :=
  (reg.find? (fun p => p.1 = order_id)).map (fun p => p.2)

/-- `c_stop_tracking_order`: delete the entry if present (idempotent). -/
def c_stop_tracking_order (reg : Registry) (order_id : String) : Registry :=
  reg.filter (fun p => p.1 ≠ order_id)

/-- Modelled from the spec for the initial field values (the `HitBTCInFlightOrder`
constructor is not in the repository sources): an order is "created at optimistic-tracking
time (state = new-equivalent)" with zero cumulative executed amounts and fee. -/
def newInFlightOrder (client_order_id exchange_order_id trading_pair : String)
    (is_buy : Bool) (price amount : ℚ) : InFlightOrder :=
  { client_order_id := client_order_id
    exchange_order_id := exchange_order_id
    trading_pair := trading_pair
    is_buy := is_buy
    price := price
    amount := amount
    executed_amount_base := 0
    executed_amount_quote := 0
    fee_paid := 0
    last_state := "new" }

/-- `c_start_tracking_order`: dictionary assignment
`self._in_flight_orders[client_order_id] = HitBTCInFlightOrder(...)`. -/
def c_start_tracking_order (reg : Registry) (client_order_id exchange_order_id
    trading_pair : String) (is_buy : Bool) (price amount : ℚ) : Registry :=
  (client_order_id,
    newInFlightOrder client_order_id exchange_order_id trading_pair is_buy price amount) ::
    c_stop_tracking_order reg client_order_id

/-- The `TradingRule` fields populated by `_format_trading_rules` (plus the
`max_order_size` bound consulted by `c_quantize_order_amount`). -/
structure TradingRule where
  trading_pair : String
  min_order_size : ℚ
  max_order_size : ℚ
  min_price_increment : ℚ
  min_base_amount_increment : ℚ
deriving DecidableEq, Repr

/-- `c_quantize_order_amount` (lines 878-893): `base_quantized` is the result of the
host-framework rounding `MarketBase.c_quantize_order_amount` (external to this
repository); the connector then returns `0` below the pair minimum and clamps to the
maximum above it. -/
def c_quantize_order_amount (rule : TradingRule) (base_quantized : ℚ) : ℚ :=
  if base_quantized < rule.min_order_size then 0
  else if base_quantized > rule.max_order_size then rule.max_order_size
  else base_quantized

/-- The inner `error` object of a venue error body. -/
structure ErrorEnvelope where
  code : Int
  message : String
deriving DecidableEq, Repr

/-- The parsed JSON body of a venue error response, an object whose sole top-level key is
`error`: `_api_request` raises `HitBTCAPIError({"error": parsed_response})` and the
exception constructor stores `error_payload.get("error")`, i.e. the full parsed body. -/
def errorResponseBody (e : ErrorEnvelope) : List (String × ErrorEnvelope) :=
  [("error", e)]

/-- Python `key in dict` membership: tests the top-level keys of the object. -/
def payloadHasKey (payload : List (String × ErrorEnvelope)) (key : String) : Bool :=
  payload.any (fun p => p.1 = key)

/-- Outcome of the awaited `DELETE /api/2/order/{id}` call inside `execute_cancel`. -/
inductive CancelOutcome where
  | response (status : String)
  | apiError (e : ErrorEnvelope)
  | exn
deriving DecidableEq, Repr

/-- Result of one `execute_cancel` coroutine: the registry afterwards, the events
triggered, and its return value (`none` models falling off the end, returning `None`). -/
structure CancelExecution where
  registry : Registry
  events : List Event
  retval : Option String
deriving DecidableEq, Repr

/-- `execute_cancel` (lines 766-795). An absent order id raises `ValueError` inside the
`try`, which the final `except Exception` swallows (log only, return `None`). A parsed
response stops tracking and emits `OrderCancelled` only when its `status` is `canceled`,
but `order_id` is returned either way. A `HitBTCAPIError` takes the cancelled branch only
when the string `20002` is a top-level key of `e.error_payload` (it is an `in` test on the
parsed body, whose sole key is `error`), and also returns `order_id` either way. Any
other exception is logged and `None` is returned. -/
def execute_cancel (reg : Registry) (order_id : String) (outcome : CancelOutcome) :
    CancelExecution :=
  match regGet reg order_id with
  | none => ⟨reg, [], none⟩
  | some _ =>
    match outcome with
    | .response status =>
      if status = "canceled" then
        ⟨c_stop_tracking_order reg order_id, [Event.OrderCancelled order_id], some order_id⟩
      else
        ⟨reg, [], some order_id⟩
    | .apiError e =>
      if payloadHasKey (errorResponseBody e) "20002" then
        ⟨c_stop_tracking_order reg order_id, [Event.OrderCancelled order_id], some order_id⟩
      else
        ⟨reg, [], some order_id⟩
    | .exn => ⟨reg, [], none⟩

/-- A `CancellationResult(order_id, success)` returned by `cancel_all`. -/
structure CancellationResult where
  order_id : String
  success : Bool
deriving DecidableEq, Repr

/-- The result-processing loop of `cancel_all` (lines 813-822): for each gathered result
that is a string, remove it from the pending id list (Python `list.remove`, first
occurrence) and append a successful result; non-string results are only logged. -/
def processCancelResults (results : List (Option String)) (ids : List String) :
    List CancellationResult × List String :=
  match results with
  | [] => ([], ids)
  | some oid :: rest =>
    let tail := processCancelResults rest (ids.erase oid)
    (⟨oid, true⟩ :: tail.1, tail.2)
  | none :: rest => processCancelResults rest ids

/-- `cancel_all` (lines 801-832): gather the open orders, issue one `execute_cancel` per
open order, and classify. `timed_out = true` models the overall `timeout(timeout_seconds)`
expiring before `safe_gather` returns: the `except` branch runs, no id is removed, and
every pending id is appended as a failed result. Otherwise each coroutine's return value
is classified by the result-processing loop and the ids never removed are appended as
failed results. -/
def cancel_all (reg : Registry) (outcome : String → CancelOutcome) (timed_out : Bool) :
    List CancellationResult :=
  let open_orders := reg.filter (fun p => p.2.is_open)
  if open_orders.isEmpty then []
  else
    let cancel_order_ids := open_orders.map (fun p => p.1)
    if timed_out then
      cancel_order_ids.map (fun oid => ⟨oid, false⟩)
    else
      let results := open_orders.map (fun p => (execute_cancel reg p.1 (outcome p.1)).retval)
      let processed := processCancelResults results cancel_order_ids
      processed.1 ++ processed.2.map (fun oid => ⟨oid, false⟩)

/-- Outcome of the awaited `place_order` call inside `execute_buy` / `execute_sell`. -/
inductive PlacementOutcome where
  | success (exchange_order_id : String)
  | failure
  | cancelled
deriving DecidableEq, Repr

/-- The exceptions `execute_buy` / `execute_sell` can let escape. -/
inductive PyError where
  | valueError
  | cancelledError
deriving DecidableEq, Repr

/-- Result of one `execute_buy` / `execute_sell` coroutine: the registry afterwards, the
events triggered, whether the placement request was issued to the request layer at all,
and the exception propagated to the caller, if any. -/
structure SubmitExecution where
  registry : Registry
  events : List Event
  placed_request : Bool
  raised : Option PyError
deriving DecidableEq, Repr

/-- `execute_buy` (lines 622-681). `base_quantized` is the host-framework-rounded amount
fed to `c_quantize_order_amount`, and `price` the already-quantized price. Below the pair
minimum a `ValueError` is raised before any network call. Otherwise `place_order` is
awaited: on success the order is tracked and a created event emitted; on
`asyncio.CancelledError` the exception re-raises; on any other exception
`c_stop_tracking_order` runs and one `MarketOrderFailureEvent` is emitted. -/
def execute_buy (reg : Registry) (rule : TradingRule) (order_id symbol : String)
    (base_quantized price : ℚ) (outcome : PlacementOutcome) : SubmitExecution :=
  let decimal_amount := c_quantize_order_amount rule base_quantized
  if decimal_amount < rule.min_order_size then
    ⟨reg, [], false, some .valueError⟩
  else
    match outcome with
    | .success eid =>
      ⟨c_start_tracking_order reg order_id eid symbol true price decimal_amount,
        [Event.BuyOrderCreated order_id decimal_amount price], true, none⟩
    | .cancelled => ⟨reg, [], true, some .cancelledError⟩
    | .failure =>
      ⟨c_stop_tracking_order reg order_id, [Event.OrderFailure order_id], true, none⟩

/-- `execute_sell` (lines 696-753), structured exactly like `execute_buy`. -/
def execute_sell (reg : Registry) (rule : TradingRule) (order_id symbol : String)
    (base_quantized price : ℚ) (outcome : PlacementOutcome) : SubmitExecution :=
  let decimal_amount := c_quantize_order_amount rule base_quantized
  if decimal_amount < rule.min_order_size then
    ⟨reg, [], false, some .valueError⟩
  else
    match outcome with
    | .success eid =>
      ⟨c_start_tracking_order reg order_id eid symbol false price decimal_amount,
        [Event.SellOrderCreated order_id decimal_amount price], true, none⟩
    | .cancelled => ⟨reg, [], true, some .cancelledError⟩
    | .failure =>
      ⟨c_stop_tracking_order reg order_id, [Event.OrderFailure order_id], true, none⟩

/-- `c_buy` line 690: `tracking_nonce = <int64_t>(time.time() * 1e6)`, the wall-clock
time in whole microseconds (`time.time()` is nonnegative, so the C truncation is a
floor). -/
def tracking_nonce (t : ℚ) : ℕ := (t * 1000000).floor.toNat

/-- `c_buy` line 691: `order_id = f"buy-{trading_pair}-{tracking_nonce}"`. -/
def c_buy_order_id (trading_pair : String) (t : ℚ) : String :=
  "buy-" ++ trading_pair ++ "-" ++ Nat.repr (tracking_nonce t)

/-- `c_sell` line 762: `order_id = f"sell-{trading_pair}-{tracking_nonce}"`. -/
def c_sell_order_id (trading_pair : String) (t : ℚ) : String :=
  "sell-" ++ trading_pair ++ "-" ++ Nat.repr (tracking_nonce t)

/-- Decimal digit characters of a natural number, most significant first (used to reason
about the decimal rendering of the order-id nonce). -/
def natDigits (n : ℕ) : List Char :=
  if _h : n < 10 then [Nat.digitChar n]
  else natDigits (n / 10) ++ [Nat.digitChar (n % 10)]
decreasing_by exact Nat.div_lt_self (by omega) (by omega)

/-! ## Helper lemmas -/

theorem update_order_status_order (o : InFlightOrder) (u : StatusUpdate) :
    (update_order_status o u).order =
      if 0 < u.cumQuantity - o.executed_amount_base then
        { o with
            last_state := u.status
            executed_amount_base := u.cumQuantity
            executed_amount_quote := u.price * u.cumQuantity
            fee_paid := u.price * u.cumQuantity * feeRate }
      else { o with last_state := u.status } := by
  by_cases hd : 0 < u.cumQuantity - o.executed_amount_base <;>
    simp only [update_order_status, hd, if_true, if_false] <;>
    split_ifs <;> rfl

theorem update_order_status_fillEvents (o : InFlightOrder) (u : StatusUpdate) :
    fillEvents (update_order_status o u).events =
      if 0 < u.cumQuantity - o.executed_amount_base then
        [Event.OrderFilled o.client_order_id u.price
          (u.cumQuantity - o.executed_amount_base) feeRate]
      else [] := by
  by_cases hd : 0 < u.cumQuantity - o.executed_amount_base <;>
    simp only [update_order_status, hd, if_true, if_false] <;>
    split_ifs <;>
    simp [fillEvents, Event.isFill]

theorem update_order_status_sumFills (o : InFlightOrder) (u : StatusUpdate) :
    sumFills (update_order_status o u).events =
      if 0 < u.cumQuantity - o.executed_amount_base then
        u.cumQuantity - o.executed_amount_base
      else 0 := by
  by_cases hd : 0 < u.cumQuantity - o.executed_amount_base <;>
    simp only [update_order_status, hd, if_true, if_false] <;>
    split_ifs <;>
    simp [sumFills, Event.fillAmount]

theorem update_order_status_executed (o : InFlightOrder) (u : StatusUpdate) :
    (update_order_status o u).order.executed_amount_base =
      max o.executed_amount_base u.cumQuantity := by
  rw [update_order_status_order]
  by_cases hd : 0 < u.cumQuantity - o.executed_amount_base
  · rw [if_pos hd]
    have : o.executed_amount_base ≤ u.cumQuantity := by linarith
    simp [max_eq_right this]
  · rw [if_neg hd]
    have : u.cumQuantity ≤ o.executed_amount_base := by linarith
    simp [max_eq_left this]

theorem update_order_status_amount (o : InFlightOrder) (u : StatusUpdate) :
    (update_order_status o u).order.amount = o.amount := by
  rw [update_order_status_order]; split_ifs <;> rfl

theorem update_order_status_last_state (o : InFlightOrder) (u : StatusUpdate) :
    (update_order_status o u).order.last_state = u.status := by
  rw [update_order_status_order]; split_ifs <;> rfl

theorem sumFills_append (a b : List Event) :
    sumFills (a ++ b) = sumFills a + sumFills b := by
  simp [sumFills]

theorem applyStatusUpdates_sumFills (us : List StatusUpdate) : ∀ o : InFlightOrder,
    List.Chain (fun x y => x ≤ y) o.executed_amount_base
      (us.map StatusUpdate.cumQuantity) →
    sumFills (applyStatusUpdates o us).2 =
      (us.map StatusUpdate.cumQuantity).getLastD o.executed_amount_base
        - o.executed_amount_base := by
  induction us with
  | nil => intro o _; simp [applyStatusUpdates, sumFills]
  | cons u rest ih =>
    intro o hchain
    rw [List.map_cons, List.chain_cons] at hchain
    obtain ⟨h1, h2⟩ := hchain
    have hex : (update_order_status o u).order.executed_amount_base = u.cumQuantity := by
      rw [update_order_status_executed, max_eq_right h1]
    simp only [applyStatusUpdates]
    rw [sumFills_append, update_order_status_sumFills]
    rw [ih (update_order_status o u).order (by rw [hex]; exact h2)]
    rw [hex, List.map_cons, List.getLastD_cons]
    by_cases hd : 0 < u.cumQuantity - o.executed_amount_base
    · rw [if_pos hd]; ring
    · rw [if_neg hd]
      have : u.cumQuantity = o.executed_amount_base := le_antisymm (by linarith) h1
      rw [this]; ring

theorem getLastD_map_cum : ∀ (us : List StatusUpdate) (hne : us ≠ []) (d : ℚ),
    (us.map StatusUpdate.cumQuantity).getLastD d = (us.getLast hne).cumQuantity := by
  intro us
  induction us with
  | nil => intro hne; exact absurd rfl hne
  | cons u rest ih =>
    intro _ d
    cases rest with
    | nil => simp
    | cons v rest2 =>
      rw [List.map_cons, List.getLastD_cons, List.getLast_cons (by simp)]
      exact ih (by simp) u.cumQuantity

theorem user_stream_step_fillEvents (o : InFlightOrder) (u : StreamUpdate) :
    fillEvents (user_stream_event_listener_step o u).events =
      if 0 < u.tradeQuantity ∧ u.reportType = "trade" then
        [Event.OrderFilled o.client_order_id u.tradePrice u.tradeQuantity feeRate]
      else [] := by
  by_cases hd : 0 < u.tradeQuantity ∧ u.reportType = "trade" <;>
    simp only [user_stream_event_listener_step, hd, if_true, if_false] <;>
    split_ifs <;> simp [fillEvents, Event.isFill]

theorem user_stream_step_client_order_id (o : InFlightOrder) (u : StreamUpdate) :
    (user_stream_event_listener_step o u).order.client_order_id = o.client_order_id := by
  simp only [user_stream_event_listener_step]
  split_ifs <;> rfl

theorem execute_cancel_retval_cases (reg : Registry) (k : String) (oc : CancelOutcome) :
    (execute_cancel reg k oc).retval = none ∨ (execute_cancel reg k oc).retval = some k := by
  unfold execute_cancel
  cases regGet reg k
  · simp
  · cases oc with
    | response s => dsimp; split_ifs <;> simp
    | apiError e => dsimp; split_ifs <;> simp
    | exn => simp

theorem execute_cancel_retval_iff (reg : Registry) (k : String) (oc : CancelOutcome)
    (o : InFlightOrder) (h : regGet reg k = some o) :
    (execute_cancel reg k oc).retval = some k ↔ oc ≠ CancelOutcome.exn := by
  unfold execute_cancel
  rw [h]
  cases oc with
  | response s =>
    dsimp
    constructor
    · intro _ hc; cases hc
    · intro _; split_ifs <;> rfl
  | apiError e =>
    dsimp
    constructor
    · intro _ hc; cases hc
    · intro _; split_ifs <;> rfl
  | exn => simp

theorem processCancelResults_spec :
    ∀ (l : List (String × Option String)) (pre : List String),
      (∀ p ∈ l, p.2 = none ∨ p.2 = some p.1) →
      (pre ++ l.map Prod.fst).Nodup →
      processCancelResults (l.map Prod.snd) (pre ++ l.map Prod.fst) =
        ((l.filter (fun p => p.2.isSome)).map
            (fun p => (⟨p.1, true⟩ : CancellationResult)),
          pre ++ (l.filter (fun p => p.2.isNone)).map Prod.fst) := by
  intro l
  induction l with
  | nil => intro pre _ _; simp [processCancelResults]
  | cons p rest ih =>
    intro pre hcomp hnodup
    rcases hcomp p (by simp) with hnone | hsome
    · rw [List.map_cons, List.map_cons, hnone]
      have heq : pre ++ p.1 :: rest.map Prod.fst = (pre ++ [p.1]) ++ rest.map Prod.fst := by
        simp
      have hnodup1 : ((pre ++ [p.1]) ++ rest.map Prod.fst).Nodup := by
        rw [← heq]; simpa using hnodup
      rw [heq]
      rw [show processCancelResults (none :: rest.map Prod.snd)
            ((pre ++ [p.1]) ++ rest.map Prod.fst) =
          processCancelResults (rest.map Prod.snd)
            ((pre ++ [p.1]) ++ rest.map Prod.fst) from rfl]
      rw [ih (pre ++ [p.1]) (fun q hq => hcomp q (by simp [hq])) hnodup1]
      rw [List.filter_cons, List.filter_cons]
      simp only [hnone, Option.isSome_none, Option.isNone_none]
      simp
    · rw [List.map_cons, List.map_cons, hsome]
      rw [show processCancelResults (some p.1 :: rest.map Prod.snd)
            (pre ++ p.1 :: rest.map Prod.fst) =
          ((⟨p.1, true⟩ : CancellationResult) ::
            (processCancelResults (rest.map Prod.snd)
              ((pre ++ p.1 :: rest.map Prod.fst).erase p.1)).1,
            (processCancelResults (rest.map Prod.snd)
              ((pre ++ p.1 :: rest.map Prod.fst).erase p.1)).2) from rfl]
      have hp1 : p.1 ∉ pre := by
        rw [List.map_cons, List.nodup_append] at hnodup
        intro hmem
        exact hnodup.2.2 hmem (by simp)
      rw [List.erase_append_right _ hp1, List.erase_cons_head]
      have hnodup2 : (pre ++ rest.map Prod.fst).Nodup := by
        rw [List.nodup_append] at hnodup ⊢
        refine ⟨hnodup.1, (List.nodup_cons.mp hnodup.2.1).2, ?_⟩
        intro a ha hb
        exact hnodup.2.2 ha (by simp [hb])
      rw [ih pre (fun q hq => hcomp q (by simp [hq])) hnodup2]
      rw [List.filter_cons, List.filter_cons]
      simp only [hsome, Option.isSome_some, Option.isNone_some]
      simp

theorem regGet_stop_tracking (reg : Registry) (k : String) :
    regGet (c_stop_tracking_order reg k) k = none := by
  induction reg with
  | nil => rfl
  | cons p rest ih =>
    rw [c_stop_tracking_order, List.filter_cons]
    rw [c_stop_tracking_order] at ih
    by_cases h : p.1 = k
    · rw [if_neg (by simp [h])]
      exact ih
    · rw [if_pos (by simpa using h)]
      rw [regGet, List.find?_cons_of_neg _ (by simpa using h)]
      rw [regGet] at ih
      exact ih

theorem toDigitsCore_eq_natDigits :
    ∀ (fuel n : ℕ) (ds : List Char), n < fuel →
      Nat.toDigitsCore 10 fuel n ds = natDigits n ++ ds := by
  intro fuel
  induction fuel with
  | zero => intro n ds h; omega
  | succ m ih =>
    intro n ds h
    by_cases h10 : n / 10 = 0
    · have hlt : n < 10 := by omega
      rw [show Nat.toDigitsCore 10 (m + 1) n ds =
          Nat.digitChar (n % 10) :: ds by
        rw [Nat.toDigitsCore]; simp [h10]]
      rw [natDigits, dif_pos hlt, Nat.mod_eq_of_lt hlt]
      rfl
    · have hge : 10 ≤ n := by omega
      have hnd : natDigits n = natDigits (n / 10) ++ [Nat.digitChar (n % 10)] := by
        rw [natDigits]
        rw [dif_neg (by omega)]
      rw [show Nat.toDigitsCore 10 (m + 1) n ds =
          Nat.toDigitsCore 10 m (n / 10) (Nat.digitChar (n % 10) :: ds) by
        rw [Nat.toDigitsCore]; simp [h10]]
      rw [ih (n / 10) (Nat.digitChar (n % 10) :: ds) (by omega)]
      rw [hnd]
      simp

theorem digitChar_toNat (n : ℕ) (h : n < 10) : (Nat.digitChar n).toNat = 48 + n := by
  interval_cases n <;> rfl

theorem natDigits_val (n : ℕ) : ∀ a : ℕ,
    List.foldl (fun a c => 10 * a + (c.toNat - 48)) a (natDigits n) =
      a * 10 ^ (natDigits n).length + n := by
  induction n using Nat.strong_induction_on with
  | _ n ih =>
    intro a
    by_cases h : n < 10
    · rw [natDigits, dif_pos h]
      simp [digitChar_toNat n h]
      omega
    · rw [natDigits, dif_neg h]
      rw [List.foldl_append]
      rw [ih (n / 10) (Nat.div_lt_self (by omega) (by omega)) a]
      simp only [List.foldl_cons, List.foldl_nil, List.length_append, List.length_cons,
        List.length_nil]
      rw [digitChar_toNat (n % 10) (by omega)]
      have hpow : a * 10 ^ ((natDigits (n / 10)).length + (0 + 1)) =
          (a * 10 ^ (natDigits (n / 10)).length) * 10 := by ring
      rw [hpow]
      omega

theorem natDigits_injective : Function.Injective natDigits := by
  intro a b h
  have ha := natDigits_val a 0
  have hb := natDigits_val b 0
  rw [h] at ha
  rw [ha] at hb
  omega

theorem natRepr_injective : ∀ m n : ℕ, Nat.repr m = Nat.repr n → m = n := by
  intro m n h
  have hd : Nat.toDigits 10 m = Nat.toDigits 10 n := by
    have h2 := congrArg String.data h
    simpa [Nat.repr, List.asString] using h2
  rw [Nat.toDigits, Nat.toDigits] at hd
  rw [toDigitsCore_eq_natDigits (m + 1) m [] (by omega),
    toDigitsCore_eq_natDigits (n + 1) n [] (by omega)] at hd
  simp at hd
  exact natDigits_injective hd

theorem string_append_cancel_left (s : String) {a b : String} (h : s ++ a = s ++ b) :
    a = b := by
  have h2 := congrArg String.data h
  rw [String.data_append, String.data_append] at h2
  have h3 := List.append_cancel_left h2
  cases a
  cases b
  exact congrArg String.mk h3

theorem rat_floor_eq (q : ℚ) (z : ℤ) (h1 : (z : ℚ) ≤ q) (h2 : q < z + 1) :
    q.floor = z := by
  have hle : z ≤ q.floor := Rat.le_floor.mpr h1
  have hlt : ¬ (z + 1) ≤ q.floor := by
    intro hc
    have := Rat.le_floor.mp hc
    push_cast at this
    linarith
  omega

/-! ## Claims -/

/-- Claim C1 (confirmed): in `_update_order_status`, an update with positive cumulative
diff emits exactly one fill event carrying the diff, an update with non-positive diff
emits no fill event, and for every sequence of status-poll updates delivered to a tracked
order (initial cumulative executed base amount zero) whose reported `cumQuantity` is
non-negative and non-decreasing, the emitted incremental fill amounts sum to the final
reported cumulative executed amount. -/
theorem claim_C1 :
    (∀ (o : InFlightOrder) (u : StatusUpdate),
        0 < u.cumQuantity - o.executed_amount_base →
        fillEvents (update_order_status o u).events =
          [Event.OrderFilled o.client_order_id u.price
            (u.cumQuantity - o.executed_amount_base) feeRate]) ∧
    (∀ (o : InFlightOrder) (u : StatusUpdate),
        u.cumQuantity - o.executed_amount_base ≤ 0 →
        fillEvents (update_order_status o u).events = []) ∧
    (∀ (o : InFlightOrder) (us : List StatusUpdate) (hne : us ≠ []),
        o.executed_amount_base = 0 →
        List.Chain (fun x y => x ≤ y) 0 (us.map StatusUpdate.cumQuantity) →
        sumFills (applyStatusUpdates o us).2 = (us.getLast hne).cumQuantity) := by
  refine ⟨?_, ?_, ?_⟩
  · intro o u h
    rw [update_order_status_fillEvents, if_pos h]
  · intro o u h
    rw [update_order_status_fillEvents, if_neg (by linarith)]
  · intro o us hne h0 hchain
    rw [applyStatusUpdates_sumFills us o (by rw [h0]; exact hchain)]
    rw [getLastD_map_cum us hne, h0, sub_zero]

/-- Claim C1 witness: the two-update scenario of the spec (cumulative 1 then 2) makes
the emitted fill amounts sum to 2. -/
theorem claim_C1_witness :
    sumFills (applyStatusUpdates (newInFlightOrder "b1" "E1" "ETHUSD" true 100 3)
      [⟨"partiallyFilled", 1, 100⟩, ⟨"filled", 2, 101⟩]).2 = 2 := by
  have h := claim_C1.2.2 (newInFlightOrder "b1" "E1" "ETHUSD" true 100 3)
    [⟨"partiallyFilled", 1, 100⟩, ⟨"filled", 2, 101⟩] (by simp) rfl
    (List.Chain.cons (by decide) (List.Chain.cons (by decide) List.Chain.nil))
  exact h

/-- Claim C2 counterexample: re-delivering the identical user-stream trade payload a
second time emits a second fill event — the stream handler derives the fill from the
per-trade `tradeQuantity`, not from a cumulative-quantity diff, so replay through that
channel is not idempotent, contrary to the claim. -/
theorem claim_C2_counterexample :
    fillEvents (user_stream_event_listener_step
      (user_stream_event_listener_step
        (newInFlightOrder "buy-ETHUSD-1" "E1" "ETHUSD" true 100 2)
        ⟨"partiallyFilled", "buy-ETHUSD-1", 100, 1, 1, "trade"⟩).order
      ⟨"partiallyFilled", "buy-ETHUSD-1", 100, 1, 1, "trade"⟩).events =
    [Event.OrderFilled "buy-ETHUSD-1" 100 1 feeRate] := by
  simp only [user_stream_step_fillEvents, user_stream_step_client_order_id]
  norm_num [newInFlightOrder]

/-- Claim C2 (amended): re-delivery through the polling channel emits no further fill
event (the cumulative diff is zero on replay), but the user-stream channel emits a fill
event on every delivery of a trade report with positive `tradeQuantity`, duplicate
deliveries included. -/
theorem claim_C2_amended :
    (∀ (o : InFlightOrder) (u : StatusUpdate),
        fillEvents (update_order_status (update_order_status o u).order u).events = []) ∧
    (∀ (o : InFlightOrder) (u : StreamUpdate),
        0 < u.tradeQuantity → u.reportType = "trade" →
        fillEvents (user_stream_event_listener_step o u).events =
          [Event.OrderFilled o.client_order_id u.tradePrice u.tradeQuantity feeRate]) := by
  constructor
  · intro o u
    rw [update_order_status_fillEvents]
    rw [if_neg]
    rw [update_order_status_executed]
    have := le_max_right o.executed_amount_base u.cumQuantity
    intro hcon
    linarith
  · intro o u h1 h2
    rw [user_stream_step_fillEvents, if_pos ⟨h1, h2⟩]

/-- Claim C2 amended witness: a concrete user-stream trade report with positive quantity
emits a fill event. -/
theorem claim_C2_amended_witness :
    fillEvents (user_stream_event_listener_step
      (newInFlightOrder "b1" "E1" "ETHUSD" true 100 2)
      ⟨"partiallyFilled", "b1", 100, 1, 1, "trade"⟩).events =
      [Event.OrderFilled "b1" 100 1 feeRate] := by
  exact claim_C2_amended.2 (newInFlightOrder "b1" "E1" "ETHUSD" true 100 2)
    ⟨"partiallyFilled", "b1", 100, 1, 1, "trade"⟩ (by decide) rfl

/-- Claim C3 counterexample: an update reporting a cumulative quantity (2) above the
requested amount (1) is stored as-is — the stored cumulative executed base amount ends
above the requested amount, so the code neither rejects nor clamps such input. -/
theorem claim_C3_counterexample :
    (update_order_status (newInFlightOrder "buy-ETHUSD-1" "E1" "ETHUSD" true 100 1)
        ⟨"partiallyFilled", 2, 100⟩).order.executed_amount_base = 2 ∧
    (update_order_status (newInFlightOrder "buy-ETHUSD-1" "E1" "ETHUSD" true 100 1)
        ⟨"partiallyFilled", 2, 100⟩).order.amount = 1 ∧
    ¬ ((update_order_status (newInFlightOrder "buy-ETHUSD-1" "E1" "ETHUSD" true 100 1)
        ⟨"partiallyFilled", 2, 100⟩).order.executed_amount_base ≤
      (update_order_status (newInFlightOrder "buy-ETHUSD-1" "E1" "ETHUSD" true 100 1)
        ⟨"partiallyFilled", 2, 100⟩).order.amount) := by
  refine ⟨?_, ?_, ?_⟩ <;>
    simp [update_order_status_executed, update_order_status_amount, newInFlightOrder]

/-- Claim C3 (amended): the stored cumulative executed base amount after an update is
`max` of the old value and the reported `cumQuantity` (the report is stored as-is, with
no clamping against the requested amount), so the invariant "cumulative executed base ≤
requested amount" holds exactly when every reported cumulative quantity is bounded by the
requested amount. -/
theorem claim_C3_amended :
    (∀ (o : InFlightOrder) (u : StatusUpdate),
        (update_order_status o u).order.executed_amount_base =
          max o.executed_amount_base u.cumQuantity) ∧
    (∀ (o : InFlightOrder) (us : List StatusUpdate),
        o.executed_amount_base ≤ o.amount →
        (∀ u ∈ us, u.cumQuantity ≤ o.amount) →
        (applyStatusUpdates o us).1.executed_amount_base ≤
          (applyStatusUpdates o us).1.amount) := by
  constructor
  · exact update_order_status_executed
  · intro o us
    induction us generalizing o with
    | nil => intro h _; simpa [applyStatusUpdates] using h
    | cons u rest ih =>
      intro h hall
      simp only [applyStatusUpdates]
      apply ih
      · rw [update_order_status_executed, update_order_status_amount]
        exact max_le h (hall u (by simp))
      · intro v hv
        rw [update_order_status_amount]
        exact hall v (by simp [hv])

/-- Claim C3 amended witness: under a bounded update the invariant holds at a concrete
input. -/
theorem claim_C3_amended_witness :
    (applyStatusUpdates (newInFlightOrder "b1" "E1" "ETHUSD" true 100 1)
       [⟨"partiallyFilled", 1, 100⟩]).1.executed_amount_base ≤
    (applyStatusUpdates (newInFlightOrder "b1" "E1" "ETHUSD" true 100 1)
       [⟨"partiallyFilled", 1, 100⟩]).1.amount := by
  exact claim_C3_amended.2 (newInFlightOrder "b1" "E1" "ETHUSD" true 100 1)
    [⟨"partiallyFilled", 1, 100⟩] (by decide) (by simp [newInFlightOrder])

/-- Claim C4 counterexample: an update whose status string is unrecognized does not
leave the last known state unchanged — the raw string is written into `last_state`
(line 486 runs unconditionally), so an order previously in state `new` ends in state
`zzz`. -/
theorem claim_C4_counterexample :
    ("zzz" ∉ recognizedStates) ∧
    (update_order_status (newInFlightOrder "buy-ETHUSD-1" "E1" "ETHUSD" true 100 1)
        ⟨"zzz", 0, 0⟩).order.last_state ≠
      (newInFlightOrder "buy-ETHUSD-1" "E1" "ETHUSD" true 100 1).last_state := by
  constructor
  · simp [recognizedStates]
  · rw [update_order_status_last_state]
    decide

/-- Claim C4 (amended): an update with an unrecognized status string is logged and
processing continues, but the stored last state is overwritten with the raw unrecognized
string; since that string is neither open nor terminal, the order is not removed and no
terminal (completion or cancellation) event is emitted — only fill events can occur. -/
theorem claim_C4_amended (o : InFlightOrder) (u : StatusUpdate)
    (h : u.status ∉ recognizedStates) :
    (update_order_status o u).order.last_state = u.status ∧
    (update_order_status o u).removed = false ∧
    ∀ e ∈ (update_order_status o u).events, e.isFill = true := by
  have h' : u.status ≠ "new" ∧ u.status ≠ "suspended" ∧ u.status ≠ "partiallyFilled" ∧
      u.status ≠ "filled" ∧ u.status ≠ "canceled" ∧ u.status ≠ "expired" := by
    simpa [recognizedStates] using h
  by_cases hd : 0 < u.cumQuantity - o.executed_amount_base <;>
    simp only [update_order_status, hd, if_true, if_false] <;>
    simp [InFlightOrder.is_open, InFlightOrder.is_done, InFlightOrder.is_cancelled,
      h'.1, h'.2.1, h'.2.2.1, h'.2.2.2.1, h'.2.2.2.2.1, h'.2.2.2.2.2, Event.isFill]

/-- Claim C4 amended witness: the unrecognized status `zzz` is stored and causes no
removal. -/
theorem claim_C4_amended_witness :
    ("zzz" ∉ recognizedStates) ∧
    (update_order_status (newInFlightOrder "b1" "E1" "ETHUSD" true 100 1)
       ⟨"zzz", 0, 0⟩).order.last_state = "zzz" ∧
    (update_order_status (newInFlightOrder "b1" "E1" "ETHUSD" true 100 1)
       ⟨"zzz", 0, 0⟩).removed = false := by
  refine ⟨by decide, ?_, ?_⟩
  · exact (claim_C4_amended (newInFlightOrder "b1" "E1" "ETHUSD" true 100 1)
      ⟨"zzz", 0, 0⟩ (by decide)).1
  · exact (claim_C4_amended (newInFlightOrder "b1" "E1" "ETHUSD" true 100 1)
      ⟨"zzz", 0, 0⟩ (by decide)).2.1

/-- Claim C5 (code bug): evaluating `execute_cancel` on a tracked order whose cancel
request the venue answers with the error envelope `20002` ("order unknown"): the
membership test `20002 in e.error_payload` inspects the top-level keys of the parsed
error body (whose sole key is `error`), so the intended cancelled-branch is never taken —
the order stays in the registry, no `OrderCancelled` event is emitted, and the coroutine
still returns the order id (which `cancel_all` counts as success). -/
theorem claim_C5_code_bug_eval :
    (execute_cancel [("buy-ETHUSD-1", newInFlightOrder "buy-ETHUSD-1" "E1" "ETHUSD" true 100 1)]
        "buy-ETHUSD-1" (.apiError ⟨20002, "Order not found"⟩)).events = [] ∧
    (execute_cancel [("buy-ETHUSD-1", newInFlightOrder "buy-ETHUSD-1" "E1" "ETHUSD" true 100 1)]
        "buy-ETHUSD-1" (.apiError ⟨20002, "Order not found"⟩)).registry =
      [("buy-ETHUSD-1", newInFlightOrder "buy-ETHUSD-1" "E1" "ETHUSD" true 100 1)] ∧
    (execute_cancel [("buy-ETHUSD-1", newInFlightOrder "buy-ETHUSD-1" "E1" "ETHUSD" true 100 1)]
        "buy-ETHUSD-1" (.apiError ⟨20002, "Order not found"⟩)).retval = some "buy-ETHUSD-1" := by
  exact ⟨rfl, rfl, rfl⟩

/-- Claim C6 counterexample: with one open order whose cancel request the venue answers
with an unconfirmed status (`new`), no cancellation was confirmed and no `OrderCancelled`
event is emitted, yet `cancel_all` reports the order as a successful cancellation —
refuting "reports as successful exactly those orders whose cancellation the venue
confirmed". -/
theorem claim_C6_counterexample :
    cancel_all [("buy-ETHUSD-1", newInFlightOrder "buy-ETHUSD-1" "E1" "ETHUSD" true 100 1)]
        (fun _ => .response "new") false =
      [⟨"buy-ETHUSD-1", true⟩] ∧
    (execute_cancel [("buy-ETHUSD-1", newInFlightOrder "buy-ETHUSD-1" "E1" "ETHUSD" true 100 1)]
        "buy-ETHUSD-1" (.response "new")).events = [] := by
  exact ⟨rfl, rfl⟩

/-- Claim C6 (amended): when the overall timeout expires first, `cancel_all` returns one
failed result per open order (and one cancel request was issued per open order); the
return value of `execute_cancel` is the order id whenever the remote call resolved at all
(any parsed response or API-error envelope, confirmed or not) and `None` only on other
exceptions; and with no timeout `cancel_all` reports as successful exactly the open
orders whose `execute_cancel` returned the id — including unconfirmed and API-error
outcomes — and as failed exactly those whose coroutine returned `None`. -/
theorem claim_C6_amended :
    (∀ (reg : Registry) (outcome : String → CancelOutcome),
        cancel_all reg outcome true =
          (reg.filter (fun p => p.2.is_open)).map
            (fun p => (⟨p.1, false⟩ : CancellationResult))) ∧
    (∀ (reg : Registry) (oid : String) (oc : CancelOutcome) (o : InFlightOrder),
        regGet reg oid = some o →
        ((execute_cancel reg oid oc).retval = some oid ↔ oc ≠ CancelOutcome.exn)) ∧
    (∀ (reg : Registry) (outcome : String → CancelOutcome),
        (reg.map Prod.fst).Nodup →
        cancel_all reg outcome false =
          ((reg.filter (fun p => p.2.is_open)).filter
              (fun p => ((execute_cancel reg p.1 (outcome p.1)).retval).isSome)).map
            (fun p => (⟨p.1, true⟩ : CancellationResult)) ++
          ((reg.filter (fun p => p.2.is_open)).filter
              (fun p => ((execute_cancel reg p.1 (outcome p.1)).retval).isNone)).map
            (fun p => (⟨p.1, false⟩ : CancellationResult))) := by
  refine ⟨?_, ?_, ?_⟩
  · intro reg outcome
    by_cases he : (reg.filter (fun p => p.2.is_open)).isEmpty
    · rw [cancel_all, if_pos he]
      rw [List.isEmpty_iff] at he
      rw [he, List.map_nil]
    · rw [cancel_all, if_neg he, if_pos rfl]
      rw [List.map_map]
      rfl
  · intro reg oid oc o h
    exact execute_cancel_retval_iff reg oid oc o h
  · intro reg outcome hnodup
    by_cases he : (reg.filter (fun p => p.2.is_open)).isEmpty
    · rw [cancel_all, if_pos he]
      rw [List.isEmpty_iff] at he
      rw [he]
      simp
    · rw [cancel_all, if_neg he]
      rw [if_neg (by simp)]
      have hmain := processCancelResults_spec
        ((reg.filter (fun p => p.2.is_open)).map
          (fun p => (p.1, (execute_cancel reg p.1 (outcome p.1)).retval)))
        []
        (by
          intro q hq
          rw [List.mem_map] at hq
          obtain ⟨p, _, rfl⟩ := hq
          exact execute_cancel_retval_cases reg p.1 (outcome p.1))
        (by
          rw [List.nil_append, List.map_map]
          have hsub : ((reg.filter (fun p => p.2.is_open)).map Prod.fst).Sublist
              (reg.map Prod.fst) :=
            (List.filter_sublist _).map Prod.fst
          exact hsub.nodup hnodup)
      rw [List.map_map, List.map_map, List.nil_append] at hmain
      rw [show ((fun p : String × Option String => p.1) ∘
        (fun p : String × InFlightOrder =>
          (p.1, (execute_cancel reg p.1 (outcome p.1)).retval))) =
        (fun p : String × InFlightOrder => p.1) from rfl] at hmain
      rw [show ((fun p : String × Option String => p.2) ∘
        (fun p : String × InFlightOrder =>
          (p.1, (execute_cancel reg p.1 (outcome p.1)).retval))) =
        (fun p : String × InFlightOrder =>
          (execute_cancel reg p.1 (outcome p.1)).retval) from rfl] at hmain
      simp only [hmain]
      rw [List.filter_map, List.filter_map, List.map_map, List.map_map, List.nil_append]
      simp only [Function.comp_def, List.map_map]

/-- Claim C6 amended witness: an open order whose cancel coroutine raises is reported as
a failed cancellation, and one whose remote call resolves (even unconfirmed) returns the
order id. -/
theorem claim_C6_amended_witness :
    cancel_all [("b1", newInFlightOrder "b1" "E1" "ETHUSD" true 100 1)]
        (fun _ => CancelOutcome.exn) false =
      [⟨"b1", false⟩] ∧
    (execute_cancel [("b1", newInFlightOrder "b1" "E1" "ETHUSD" true 100 1)] "b1"
        (CancelOutcome.response "new")).retval = some "b1" := by
  constructor
  · have h := claim_C6_amended.2.2 [("b1", newInFlightOrder "b1" "E1" "ETHUSD" true 100 1)]
      (fun _ => CancelOutcome.exn) (by simp)
    rw [h]
    rfl
  · exact (claim_C6_amended.2.1 [("b1", newInFlightOrder "b1" "E1" "ETHUSD" true 100 1)]
      "b1" (CancelOutcome.response "new")
      (newInFlightOrder "b1" "E1" "ETHUSD" true 100 1) rfl).mpr (by decide)

/-- Claim C7 (confirmed): a buy or sell submission whose quantized amount is strictly
below the pair minimum fails with a `ValueError` before any network call — the placement
request is never issued, no event is emitted, and the registry is unchanged; moreover a
raw amount below the minimum quantizes to zero, which (for a positive minimum) triggers
exactly this path. -/
theorem claim_C7 :
    (∀ (reg : Registry) (rule : TradingRule) (oid sym : String) (q p : ℚ)
        (oc : PlacementOutcome),
        c_quantize_order_amount rule q < rule.min_order_size →
        execute_buy reg rule oid sym q p oc =
          ⟨reg, [], false, some PyError.valueError⟩ ∧
        execute_sell reg rule oid sym q p oc =
          ⟨reg, [], false, some PyError.valueError⟩) ∧
    (∀ (rule : TradingRule) (q : ℚ),
        q < rule.min_order_size → 0 < rule.min_order_size →
        c_quantize_order_amount rule q < rule.min_order_size) := by
  constructor
  · intro reg rule oid sym q p oc h
    constructor
    · simp only [execute_buy, if_pos h]
    · simp only [execute_sell, if_pos h]
  · intro rule q hq hmin
    rw [c_quantize_order_amount, if_pos hq]
    exact hmin

/-- Claim C7 witness: a quantized amount of 2 against a pair minimum of 3 is rejected
before placement. -/
theorem claim_C7_witness :
    c_quantize_order_amount ⟨"ETHUSD", 3, 1000, 1, 1⟩ 2 < (3 : ℚ) ∧
    execute_buy [] ⟨"ETHUSD", 3, 1000, 1, 1⟩ "b1" "ETHUSD" 2 100
      (PlacementOutcome.success "E1") = ⟨[], [], false, some PyError.valueError⟩ := by
  have hq : c_quantize_order_amount ⟨"ETHUSD", 3, 1000, 1, 1⟩ 2 < (3 : ℚ) := by decide
  exact ⟨hq, (claim_C7.1 [] ⟨"ETHUSD", 3, 1000, 1, 1⟩ "b1" "ETHUSD" 2 100
    (PlacementOutcome.success "E1") hq).1⟩

/-- Claim C8 counterexample: two submission calls at distinct instants inside the same
wall-clock microsecond generate the same client order id — the nonce is
`<int64_t>(time.time() * 1e6)`, wall-clock alone, not a monotonic counter, so the
claimed uniqueness under rapid repeated calls fails. -/
theorem claim_C8_counterexample :
    ((1 + 1/10000000 : ℚ) ≠ (1 + 4/10000000 : ℚ)) ∧
    c_buy_order_id "ETHUSD" (1 + 1/10000000) = c_buy_order_id "ETHUSD" (1 + 4/10000000) := by
  constructor
  · norm_num
  · have h1 : tracking_nonce (1 + 1/10000000) = 1000000 := by
      rw [tracking_nonce]
      rw [show ((1 + 1/10000000 : ℚ) * 1000000) = 1000000 + 1/10 by norm_num]
      rw [rat_floor_eq (1000000 + 1/10 : ℚ) 1000000 (by norm_num) (by norm_num)]
      rfl
    have h2 : tracking_nonce (1 + 4/10000000) = 1000000 := by
      rw [tracking_nonce]
      rw [show ((1 + 4/10000000 : ℚ) * 1000000) = 1000000 + 2/5 by norm_num]
      rw [rat_floor_eq (1000000 + 2/5 : ℚ) 1000000 (by norm_num) (by norm_num)]
      rfl
    rw [c_buy_order_id, c_buy_order_id, h1, h2]

/-- Claim C8 (amended): the client order id is a function of side, trading pair and the
wall-clock microsecond nonce alone — calls with equal nonces and the same side and pair
collide; ids of the same side and pair differ whenever the nonces differ; and a buy id
never equals a sell id. -/
theorem claim_C8_amended :
    (∀ (pair : String) (t₁ t₂ : ℚ), tracking_nonce t₁ = tracking_nonce t₂ →
        c_buy_order_id pair t₁ = c_buy_order_id pair t₂ ∧
        c_sell_order_id pair t₁ = c_sell_order_id pair t₂) ∧
    (∀ (pair : String) (t₁ t₂ : ℚ), tracking_nonce t₁ ≠ tracking_nonce t₂ →
        c_buy_order_id pair t₁ ≠ c_buy_order_id pair t₂ ∧
        c_sell_order_id pair t₁ ≠ c_sell_order_id pair t₂) ∧
    (∀ (pair₁ pair₂ : String) (t₁ t₂ : ℚ),
        c_buy_order_id pair₁ t₁ ≠ c_sell_order_id pair₂ t₂) := by
  refine ⟨?_, ?_, ?_⟩
  · intro pair t₁ t₂ h
    rw [c_buy_order_id, c_sell_order_id, h]
    exact ⟨rfl, rfl⟩
  · intro pair t₁ t₂ h
    constructor
    · intro hc
      rw [c_buy_order_id, c_buy_order_id] at hc
      exact h (natRepr_injective _ _ (string_append_cancel_left _ hc))
    · intro hc
      rw [c_sell_order_id, c_sell_order_id] at hc
      exact h (natRepr_injective _ _ (string_append_cancel_left _ hc))
  · intro pair₁ pair₂ t₁ t₂ hc
    rw [c_buy_order_id, c_sell_order_id] at hc
    have h2 := congrArg String.data hc
    simp only [String.data_append] at h2
    have h3 : (some 'b' : Option Char) = some 's' := congrArg List.head? h2
    exact absurd h3 (by decide)

/-- Claim C8 amended witness: buy ids generated at one-second-apart timestamps (distinct
microsecond nonces) differ. -/
theorem claim_C8_amended_witness :
    (tracking_nonce 1 ≠ tracking_nonce 2) ∧
    c_buy_order_id "ETHUSD" 1 ≠ c_buy_order_id "ETHUSD" 2 := by
  have h1 : tracking_nonce 1 = 1000000 := by
    rw [tracking_nonce, show ((1 : ℚ) * 1000000) = 1000000 by norm_num,
      rat_floor_eq (1000000 : ℚ) 1000000 (by norm_num) (by norm_num)]
    rfl
  have h2 : tracking_nonce 2 = 2000000 := by
    rw [tracking_nonce, show ((2 : ℚ) * 1000000) = 2000000 by norm_num,
      rat_floor_eq (2000000 : ℚ) 2000000 (by norm_num) (by norm_num)]
    rfl
  have hn : tracking_nonce 1 ≠ tracking_nonce 2 := by
    rw [h1, h2]; decide
  exact ⟨hn, (claim_C8_amended.2.1 "ETHUSD" 1 2 hn).1⟩

/-- Claim C9 (confirmed): when the remote placement call fails with an exception other
than a task-cancellation signal, the order id is absent from the registry afterwards and
exactly one `OrderFailure` event is emitted with nothing re-raised; when it fails with
the task-cancellation signal, the registry is untouched, no event is emitted, and the
cancellation propagates to the caller — for buy and sell alike. -/
theorem claim_C9 :
    ∀ (reg : Registry) (rule : TradingRule) (oid sym : String) (q p : ℚ),
    ¬ c_quantize_order_amount rule q < rule.min_order_size →
    (regGet (execute_buy reg rule oid sym q p .failure).registry oid = none ∧
      (execute_buy reg rule oid sym q p .failure).events = [Event.OrderFailure oid] ∧
      (execute_buy reg rule oid sym q p .failure).raised = none) ∧
    ((execute_buy reg rule oid sym q p .cancelled).registry = reg ∧
      (execute_buy reg rule oid sym q p .cancelled).events = [] ∧
      (execute_buy reg rule oid sym q p .cancelled).raised = some PyError.cancelledError) ∧
    (regGet (execute_sell reg rule oid sym q p .failure).registry oid = none ∧
      (execute_sell reg rule oid sym q p .failure).events = [Event.OrderFailure oid] ∧
      (execute_sell reg rule oid sym q p .failure).raised = none) ∧
    ((execute_sell reg rule oid sym q p .cancelled).registry = reg ∧
      (execute_sell reg rule oid sym q p .cancelled).events = [] ∧
      (execute_sell reg rule oid sym q p .cancelled).raised = some PyError.cancelledError) := by
  intro reg rule oid sym q p h
  refine ⟨⟨?_, ?_, ?_⟩, ⟨?_, ?_, ?_⟩, ⟨?_, ?_, ?_⟩, ⟨?_, ?_, ?_⟩⟩ <;>
    simp only [execute_buy, execute_sell, if_neg h] <;>
    exact regGet_stop_tracking reg oid

/-- Claim C9 witness: a failed placement of a valid-size order leaves the id untracked
and emits one failure event. -/
theorem claim_C9_witness :
    regGet (execute_buy [] ⟨"ETHUSD", 3, 1000, 1, 1⟩ "b1" "ETHUSD" 5 100
      PlacementOutcome.failure).registry "b1" = none ∧
    (execute_buy [] ⟨"ETHUSD", 3, 1000, 1, 1⟩ "b1" "ETHUSD" 5 100
      PlacementOutcome.failure).events = [Event.OrderFailure "b1"] := by
  have h := claim_C9 [] ⟨"ETHUSD", 3, 1000, 1, 1⟩ "b1" "ETHUSD" 5 100 (by decide)
  exact ⟨h.1.1, h.1.2.1⟩

/-- Claim C10 (confirmed): on any status-poll update with positive cumulative diff the
order's cumulative executed quote amount is overwritten with the update's price times the
whole new cumulative base amount and the cumulative fee with that quote times the fixed
0.0007 rate; on a terminal `filled` update the completion event therefore carries the
quote and fee valued entirely at the final update's price. -/
theorem claim_C10 :
    ∀ (o : InFlightOrder) (u : StatusUpdate),
    0 < u.cumQuantity - o.executed_amount_base →
    ((update_order_status o u).order.executed_amount_quote = u.price * u.cumQuantity ∧
     (update_order_status o u).order.fee_paid = u.price * u.cumQuantity * feeRate) ∧
    (u.status = "filled" →
      (update_order_status o u).removed = true ∧
      (update_order_status o u).events =
        [Event.OrderFilled o.client_order_id u.price
           (u.cumQuantity - o.executed_amount_base) feeRate,
         (if o.is_buy then
            Event.BuyOrderCompleted o.client_order_id u.cumQuantity
              (u.price * u.cumQuantity) (u.price * u.cumQuantity * feeRate)
          else
            Event.SellOrderCompleted o.client_order_id u.cumQuantity
              (u.price * u.cumQuantity) (u.price * u.cumQuantity * feeRate))]) := by
  intro o u h
  constructor
  · rw [update_order_status_order, if_pos h]
    exact ⟨rfl, rfl⟩
  · intro hst
    constructor
    · simp only [update_order_status, if_pos h]
      simp [InFlightOrder.is_open, InFlightOrder.is_done, InFlightOrder.is_cancelled, hst]
    · simp only [update_order_status, if_pos h]
      simp [InFlightOrder.is_open, InFlightOrder.is_done, InFlightOrder.is_cancelled, hst]

/-- Claim C10 witness: a filled update at price 101 for total 2 reports quote 202
re-priced at the final price. -/
theorem claim_C10_witness :
    (0 : ℚ) < 2 - (newInFlightOrder "b1" "E1" "ETHUSD" true 100 2).executed_amount_base ∧
    (update_order_status (newInFlightOrder "b1" "E1" "ETHUSD" true 100 2)
       ⟨"filled", 2, 101⟩).order.executed_amount_quote = 101 * 2 := by
  have hd : (0 : ℚ) <
      2 - (newInFlightOrder "b1" "E1" "ETHUSD" true 100 2).executed_amount_base := by
    simp [newInFlightOrder]
  exact ⟨hd, (claim_C10 (newInFlightOrder "b1" "E1" "ETHUSD" true 100 2)
    ⟨"filled", 2, 101⟩ hd).1.1⟩

end HitBTC
